import Mathlib

/-!
Verification of the dlxtrade-ws ML service core against its specification.

The Python sources (`src/ml-service/backtest.py`, `src/ml-service/app.py`)
are shallowly embedded below.  Python floats are modelled as exact rational
numbers (`ℚ`); IEEE rounding is abstracted away, which is the intended
reading of the spec's decimal-precision statements.
-/

namespace MLService

/-- One row of the labeled backtest dataset, restricted to the fields read by
`simulate_trades` (`row.get('max_future_return', 0)` and
`row.get('min_future_return', 0)`); `none` models an absent column. -/
structure Row where
  max_future_return : Option ℚ
  min_future_return : Option ℚ
deriving DecidableEq

/-- `TradeResult` dataclass from `backtest.py` (lines 112-115). -/
structure TradeResult where
  pnl : ℚ
  direction : String
deriving DecidableEq

/-- The `trading` dictionary returned by `simulate_trades` (lines 140-145). -/
structure BacktestSummary where
  profitFactor : ℚ
  maxDrawdown : ℚ
  totalPnl : ℚ
  equityCurve : List ℚ
deriving DecidableEq

/-- Per-row PnL of the loop body of `simulate_trades` (backtest.py lines
122-128): gross PnL from the prediction direction, then the flat cost
`(fee + slippage + funding) / 10000` subtracted unconditionally. -/
def rowPnl (row : Row) (pred : String) (fee slippage funding : ℚ) : ℚ :=
  (if pred = "BUY" then row.max_future_return.getD 0
   else if pred = "SELL" then |row.min_future_return.getD 0|
   else 0) - (fee + slippage + funding) / 10000

/-- `np.maximum.accumulate` on a list: running maximum, element `i` is the
maximum of the first `i+1` elements. -/
def running_max : List ℚ → List ℚ
  | [] => []
  | x :: xs => List.scanl max x xs

/-- `simulate_trades` from backtest.py (lines 118-145).  The Python loop
indexes `predictions[i]` for each dataset row; the two sequences are
parallel (equal length) per the contract, which the zip below realizes. -/
def simulate_trades (rows : List Row) (predictions : List String)
    (fee slippage funding : ℚ) : BacktestSummary :=
  let trades := (rows.zip predictions).map (fun rp =>
    { pnl := rowPnl rp.1 rp.2 fee slippage funding, direction := rp.2 : TradeResult })
  let equity_curve := List.scanl (· + ·) 0 (trades.map TradeResult.pnl)
  let peak := running_max equity_curve
  let drawdown := List.zipWith (· - ·) equity_curve peak
  let max_drawdown := (drawdown.min?).getD 0
  let gains := ((trades.filter (fun t => decide (0 < t.pnl))).map TradeResult.pnl).sum
  let losses0 := |((trades.filter (fun t => decide (t.pnl < 0))).map TradeResult.pnl).sum|
  let losses := if losses0 = 0 then 1 / 1000000000 else losses0
  { profitFactor := gains / losses
    maxDrawdown := max_drawdown
    totalPnl := equity_curve.getLastD 0
    equityCurve := equity_curve }

/-- The per-row net PnL sequence of `simulate_trades`
(`[trade.pnl for trade in trades]`). -/
def pnl_list (rows : List Row) (predictions : List String)
    (fee slippage funding : ℚ) : List ℚ :=
  (rows.zip predictions).map (fun rp => rowPnl rp.1 rp.2 fee slippage funding)

/-- Refinement comparison only.  Modelled from the spec's words: profit
factor with "the denominator floored to a small epsilon", i.e. the
denominator is `max` of the absolute loss sum and the epsilon `1e-9`. -/
def spec_profit_factor (pnls : List ℚ) : ℚ :=
  (pnls.filter (fun p => decide (0 < p))).sum /
    max |(pnls.filter (fun p => decide (p < 0))).sum| (1 / 1000000000)

/-!  Embedding of `src/ml-service/app.py`. -/

/-- A loaded model bundle (app.py).  The scaler, the calibrated ensemble
and the label encoder are opaque external artifacts; they are modelled as
the functions/data the inference path consumes: `scaler` is
`scaler.transform` on one vector, `predict_proba` yields the class
probability vector for one scaled vector, `classes` is
`label_encoder.classes_` (so `label_encoder.transform` of a label is its
index in `classes`, and `inverse_transform` of an index is the entry
there).  `feature_names` is `bundle.get('feature_names', ...)`: `none`
models an absent key. -/
structure Bundle where
  feature_names : Option (List String)
  scaler : List ℚ → List ℚ
  predict_proba : List ℚ → List ℚ
  classes : List String

/-- Python truthiness of `data.get('featureNames')`: `None` and the empty
list are falsy. -/
def truthy_names (o : Option (List String)) : Bool :=
  match o with
  | some l => !l.isEmpty
  | none => false

/-- The dict comprehension
`index_map = {name: idx for idx, name in enumerate(requested_names)}`
(app.py line 118): insert `name ↦ idx` in enumeration order, a later entry
for the same name overwriting an earlier one. -/
def index_map (requested_names : List String) : String → Option Nat :=
  (requested_names.foldl
    (fun acc name => (acc.1 + 1, Function.update acc.2 name (some acc.1)))
    (0, fun _ => none)).2

/-- Recursive characterization of `index_map` (index of the last
occurrence); used only through `index_map_eq_rec`. -/
def index_map_rec : List String → String → Option Nat
  | [], _ => none
  | x :: xs, n =>
    match index_map_rec xs n with
    | some j => some (j + 1)
    | none => if x = n then some 0 else none

/-- The list comprehension of app.py line 119: re-derive the vector in
`feature_names` order, copying `features[index_map[name]]` when the name
is mapped and substituting `0` otherwise (`index_map.get(name, -1)`
guarded by `>= 0`; mapped indices are in bounds since the mismatch check
already forced `len(requested_names) == len(features)`). -/
def align (feature_names : List String) (features : List ℚ)
    (requested_names : List String) : List ℚ :=
  feature_names.map (fun name =>
    match index_map requested_names name with
    | some idx => features.getD idx 0
    | none => 0)

/-- Lines 117-122 of app.py: align when `requested_names` is truthy, else
pass the raw vector through unchanged. -/
def aligned_vector (features : List ℚ) (requested_names : Option (List String))
    (feature_names : List String) : List ℚ :=
  if truthy_names requested_names then align feature_names features (requested_names.getD [])
  else features

/-- `bundle.get('feature_names', [f'feature_{i}' for i in range(len(features))])`
(app.py line 113). -/
def resolved_feature_names (bundle : Bundle) (features : List ℚ) : List String :=
  match bundle.feature_names with
  | some ns => ns
  | none => (List.range features.length).map (fun i => s!"feature_{i}")

/-- `np.argmax`: index of the first maximal element (strictly greater
values displace the incumbent). -/
def argmax_go (bestIdx : Nat) (bestVal : ℚ) (i : Nat) : List ℚ → Nat
  | [] => bestIdx
  | x :: xs => if bestVal < x then argmax_go i x (i + 1) xs else argmax_go bestIdx bestVal (i + 1) xs

/-- `np.argmax` over a probability vector; 0 on the empty list (the empty
case is unreachable in `predict`, which guards it separately). -/
def np_argmax : List ℚ → Nat
  | [] => 0
  | x :: xs => argmax_go 0 x 1 xs

/-- Python `int()` applied to a float: truncation toward zero. -/
def pyInt (q : ℚ) : ℤ :=
  if 0 ≤ q then ⌊q⌋ else ⌈q⌉

/-- Kind of one rendered explanation line of `format_explanations`: a
"supports <direction>" line or a "reduces confidence" line. -/
inductive ExplanationKind where
  | supports (direction : String)
  | reduces
deriving DecidableEq

/-- One explanation entry: the feature name and contribution that the
rendered string `f"{name} contributes ..."` interpolates, plus its kind.
(The 3-decimal float formatting of the rendered text is presentation only
and is not modelled.) -/
structure Explanation where
  name : String
  value : ℚ
  kind : ExplanationKind
deriving DecidableEq

/-- Case-insensitive substring test, `pat in s.lower()` (`lower()` maps
each character to lowercase). -/
def contains_sub (s pat : String) : Bool :=
  decide (pat.toList <:+: s.toList.map Char.toLower)

/-- `get_signal_from_feature` from app.py (lines 64-74). -/
def get_signal_from_feature (feature_name : String) : String :=
  if contains_sub feature_name "rsi" || contains_sub feature_name "oversold" then "LONG"
  else if contains_sub feature_name "overbought" then "SHORT"
  else if contains_sub feature_name "imbalance" && contains_sub feature_name "buy" then "LONG"
  else if contains_sub feature_name "imbalance" && contains_sub feature_name "sell" then "SHORT"
  else "signal"

/-- `format_explanations` from app.py (lines 47-62): pair names with
contributions, stable-sort descending by contribution, keep the first 6
strictly positive pairs as "supports" lines and the last 3 strictly
negative pairs (the most negative) as "reduces confidence" lines,
concatenate supports first and truncate to 6. -/
def format_explanations (feature_names : List String) (contributions : List ℚ) :
    List Explanation :=
  let feature_contribs := feature_names.zip contributions
  let sorted := feature_contribs.mergeSort (fun a b => decide (b.2 ≤ a.2))
  let top_positive := (sorted.filter (fun fc => decide (0 < fc.2))).take 6
  let negs := sorted.filter (fun fc => decide (fc.2 < 0))
  let top_negative := negs.drop (negs.length - 3)
  ((top_positive.map (fun fc =>
      { name := fc.1, value := fc.2, kind := .supports (get_signal_from_feature fc.1) : Explanation })) ++
   (top_negative.map (fun fc =>
      { name := fc.1, value := fc.2, kind := .reduces : Explanation }))).take 6

/-- The process-wide `model_bundles` cache of app.py, keyed by the
requested path string.  (The companion `shap_explainers` cache holds an
external SHAP object and is not modelled; its absence only empties the
explanation fields.) -/
structure RegistryState where
  bundles : List (String × Bundle)

/-- `model_path in model_bundles` / `model_bundles[model_path]`. -/
def lookup_bundle (st : RegistryState) (path : String) : Option Bundle :=
  (st.bundles.find? (fun p => p.1 == path)).map (fun p => p.2)

/-- `load_model` from app.py (lines 22-45).  The filesystem is modelled as
`fs : path → Option Bundle` (`none` when `os.path.exists` is false, else
the deserialized artifact).  Returns the bundle (or `none`), the updated
cache, and the number of file reads (`joblib.load` calls) performed.
SHAP explainer construction (lines 33-43) is an external, non-fatal side
effect on the unmodelled `shap_explainers` map and is omitted. -/
def load_model (fs : String → Option Bundle) (st : RegistryState) (path : String) :
    Option Bundle × RegistryState × Nat :=
  match lookup_bundle st path with
  | some b => (some b, st, 0)
  | none =>
    match fs path with
    | none => (none, st, 0)
    | some bundle => (some bundle, ⟨st.bundles ++ [(path, bundle)]⟩, 1)

/-- The per-class probability map of the response (app.py lines 159-163):
exactly the keys BUY/SELL/HOLD, each `None` when the label is not among
`label_encoder.classes_`, else the probability at
`label_encoder.transform([label])[0]`. -/
def class_probability (classes : List String) (probabilities : List ℚ)
    (label : String) : Option ℚ :=
  if label ∈ classes then some (probabilities.getD (classes.indexOf label) 0) else none

/-- The JSON body of a successful `/predict` response, restricted to the
fields the spec's claims concern (`accuracyRange` and the `shap` payload
are metadata passthrough and are not modelled). -/
structure Response where
  signal : String
  probability : ℚ
  confidence : ℤ
  explanations : List Explanation
  probabilities : List (String × Option ℚ)

/-- Outcome of one `/predict` call: a JSON error with an HTTP status, or a
success body. -/
inductive PredictResult where
  | error (msg : String) (status : Nat)
  | ok (resp : Response)

/-- The `/predict` handler from app.py (lines 97-167).  The explainer
argument stands for `shap_explainers.get(model_path)`: when present it
yields the contribution vector for the selected class from the scaled
input (the `shap_values` call).  `np.argmax` of an empty probability
vector raises inside the handler's catch-all, hence the 500 branch. -/
def predict (fs : String → Option Bundle) (st : RegistryState) (path : String)
    (explainer : Option (List ℚ → Nat → List ℚ))
    (features : List ℚ) (requested_names : Option (List String)) :
    PredictResult × RegistryState :=
  if features.length = 0 then (.error "No features provided" 400, st)
  else
    match load_model fs st path with
    | (none, st2, _) => (.error "Model not ready" 503, st2)
    | (some bundle, st2, _) =>
      let feature_names := resolved_feature_names bundle features
      if truthy_names requested_names ∧ (requested_names.getD []).length ≠ features.length then
        (.error "Feature count mismatch" 400, st2)
      else
        let feature_vector := aligned_vector features requested_names feature_names
        let scaled := bundle.scaler feature_vector
        let probabilities := bundle.predict_proba scaled
        if probabilities.isEmpty then
          (.error "attempt to get argmax of an empty sequence" 500, st2)
        else
          let prediction_idx := np_argmax probabilities
          let probability := probabilities.getD prediction_idx 0
          (.ok
            { signal := bundle.classes.getD prediction_idx ""
              probability := probability
              confidence := pyInt (probability * 100)
              explanations :=
                match explainer with
                | some f => format_explanations feature_names (f scaled prediction_idx)
                | none => []
              probabilities :=
                [("BUY", class_probability bundle.classes probabilities "BUY"),
                 ("SELL", class_probability bundle.classes probabilities "SELL"),
                 ("HOLD", class_probability bundle.classes probabilities "HOLD")] }, st2)

/-- Fixture bundle for concrete witnesses: two trained features, identity
scaler, constant probability vector, and a class set lacking SELL. -/
def wBundle : Bundle :=
  { feature_names := some ["alpha", "beta"]
    scaler := fun v => v
    predict_proba := fun _ => [3/10, 7/10]
    classes := ["BUY", "HOLD"] }

/-!  Helper lemmas. -/

theorem index_map_fold (names : List String) (n : String) :
    ∀ (i : Nat) (m : String → Option Nat),
    (names.foldl (fun acc name => (acc.1 + 1, Function.update acc.2 name (some acc.1))) (i, m)).2 n =
      (match index_map_rec names n with
       | some j => some (i + j)
       | none => m n) := by
  induction names with
  | nil => intro i m; simp [index_map_rec]
  | cons x xs ih =>
    intro i m
    rw [List.foldl_cons, ih]
    cases h : index_map_rec xs n with
    | some j =>
      simp only [index_map_rec, h]
      congr 1
      omega
    | none =>
      simp only [index_map_rec, h, Function.update_apply]
      by_cases hx : x = n
      · subst hx
        simp
      · have hnx : ¬n = x := fun he => hx he.symm
        simp [hx, hnx]

theorem index_map_eq_rec (names : List String) (n : String) :
    index_map names n = index_map_rec names n := by
  show (names.foldl _ (0, fun _ => none)).2 n = _
  rw [index_map_fold]
  cases h : index_map_rec names n <;> simp

theorem index_map_rec_none_iff (names : List String) (n : String) :
    index_map_rec names n = none ↔ n ∉ names := by
  induction names with
  | nil => simp [index_map_rec]
  | cons x xs ih =>
    simp only [index_map_rec, List.mem_cons]
    cases h : index_map_rec xs n with
    | some j => simp [← ih, h]
    | none =>
      by_cases hx : x = n
      · simp [hx]
      · have hnx : ¬n = x := fun he => hx he.symm
        simp [hx, ← ih, h, hnx]

theorem index_map_rec_some (names : List String) (n : String) :
    ∀ (i : Nat), index_map_rec names n = some i →
      i < names.length ∧ names.getD i "" = n := by
  induction names with
  | nil => intro i h; simp [index_map_rec] at h
  | cons x xs ih =>
    intro i h
    simp only [index_map_rec] at h
    cases hx : index_map_rec xs n with
    | some j =>
      rw [hx] at h
      obtain ⟨hj, he⟩ := ih j hx
      cases h
      exact ⟨by simpa using Nat.succ_lt_succ hj, by simpa using he⟩
    | none =>
      rw [hx] at h
      by_cases hxe : x = n
      · simp only [hxe, if_pos rfl] at h
        cases h
        exact ⟨Nat.succ_pos _, by simpa using hxe⟩
      · simp [hxe] at h

theorem index_map_rec_last (names : List String) (n : String) :
    ∀ (i : Nat), i < names.length → names.getD i "" = n →
      (∀ k, k < names.length → i < k → names.getD k "" ≠ n) →
      index_map_rec names n = some i := by
  induction names with
  | nil => intro i hi; simp at hi
  | cons x xs ih =>
    intro i hi he hlast
    cases i with
    | zero =>
      have hnot : n ∉ xs := by
        intro hmem
        obtain ⟨k, hk, hke⟩ := List.mem_iff_getElem.mp hmem
        refine hlast (k + 1) (by simpa using Nat.succ_lt_succ hk) (Nat.succ_pos _) ?_
        rw [List.getD_cons_succ, List.getD_eq_getElem _ _ hk]
        exact hke
      have hx : x = n := by simpa using he
      simp [index_map_rec, (index_map_rec_none_iff xs n).mpr hnot, hx]
    | succ j =>
      have hj : j < xs.length := by simpa using hi
      have hrec : index_map_rec xs n = some j := by
        refine ih j hj (by simpa using he) ?_
        intro k hk hjk
        have := hlast (k + 1) (by simpa using Nat.succ_lt_succ hk) (Nat.succ_lt_succ hjk)
        simpa using this
      simp [index_map_rec, hrec]

theorem align_length (feature_names : List String) (features : List ℚ)
    (requested_names : List String) :
    (align feature_names features requested_names).length = feature_names.length :=
  List.length_map _ _

theorem align_getD (feature_names : List String) (features : List ℚ)
    (requested_names : List String) (j : Nat) (hj : j < feature_names.length) :
    (align feature_names features requested_names).getD j 0 =
      (match index_map requested_names (feature_names.getD j "") with
       | some idx => features.getD idx 0
       | none => 0) := by
  have hj2 : j < (align feature_names features requested_names).length := by
    simpa [align_length] using hj
  rw [List.getD_eq_getElem _ _ hj2, List.getD_eq_getElem _ _ hj]
  simp [align, List.getElem_map]

theorem scanl_cons_tail (f : ℚ → ℚ → ℚ) (b : ℚ) (l : List ℚ) :
    List.scanl f b l = b :: (List.scanl f b l).tail := by
  cases l <;> simp [List.scanl_cons]

theorem zip_sub_scanl_gen (l : List ℚ) :
    ∀ (b c : ℚ),
      List.zipWith (· - ·) (List.scanl (· + ·) b l) (c :: List.scanl (· + ·) b l) =
        (b - c) :: l := by
  induction l with
  | nil => intro b c; simp
  | cons x xs ih =>
    intro b c
    rw [List.scanl_cons]
    simp only [List.singleton_append, List.zipWith_cons_cons]
    rw [ih (b + x) b, add_sub_cancel_left]

theorem zip_sub_tail_scanl (l : List ℚ) (b : ℚ) :
    List.zipWith (· - ·) (List.scanl (· + ·) b l).tail (List.scanl (· + ·) b l) = l := by
  cases l with
  | nil => simp
  | cons x xs =>
    rw [List.scanl_cons]
    simp only [List.singleton_append, List.tail_cons]
    rw [zip_sub_scanl_gen xs (b + x) b, add_sub_cancel_left]

theorem scanl_add_getD (l : List ℚ) :
    ∀ (b : ℚ) (i : Nat), i < l.length →
      (List.scanl (· + ·) b l).getD (i + 1) 0 =
        (List.scanl (· + ·) b l).getD i 0 + l.getD i 0 := by
  induction l with
  | nil => intro b i hi; simp at hi
  | cons x xs ih =>
    intro b i hi
    rw [List.scanl_cons]
    cases i with
    | zero =>
      rw [scanl_cons_tail (· + ·) (b + x) xs]
      simp
    | succ j =>
      have hj : j < xs.length := by simpa using hi
      simp only [List.singleton_append, List.getD_cons_succ]
      exact ih (b + x) j hj

theorem scanl_max_of_chain (l : List ℚ) :
    ∀ (x : ℚ), List.Chain' (· ≤ ·) (x :: l) → List.scanl max x l = x :: l := by
  induction l with
  | nil => intro x _; simp
  | cons y ys ih =>
    intro x h
    obtain ⟨hxy, hys⟩ := List.chain'_cons.mp h
    rw [List.scanl_cons, max_eq_right hxy, ih y hys]
    simp

theorem foldl_min_le_init (l : List ℚ) : ∀ (a : ℚ), l.foldl min a ≤ a := by
  induction l with
  | nil => intro a; simp
  | cons x xs ih => intro a; exact le_trans (ih (min a x)) (min_le_left a x)

theorem foldl_min_of_le (l : List ℚ) :
    ∀ (a : ℚ), (∀ x ∈ l, a ≤ x) → l.foldl min a = a := by
  induction l with
  | nil => intro a _; rfl
  | cons x xs ih =>
    intro a h
    have hx : a ≤ x := h x (by simp)
    rw [List.foldl_cons, min_eq_left hx]
    exact ih a (fun y hy => h y (by simp [hy]))

theorem argmax_go_lt (l : List ℚ) :
    ∀ (bestIdx : Nat) (bestVal : ℚ) (i : Nat), bestIdx < i →
      argmax_go bestIdx bestVal i l < i + l.length := by
  induction l with
  | nil => intro b v i hb; simpa [argmax_go] using hb
  | cons x xs ih =>
    intro b v i hb
    simp only [argmax_go, List.length_cons]
    by_cases hlt : v < x
    · rw [if_pos hlt]
      have h2 := ih i x (i + 1) (Nat.lt_succ_self i)
      omega
    · rw [if_neg hlt]
      have h2 := ih b v (i + 1) (Nat.lt_succ_of_lt hb)
      omega

theorem np_argmax_lt (l : List ℚ) (h : l ≠ []) : np_argmax l < l.length := by
  cases l with
  | nil => exact absurd rfl h
  | cons x xs =>
    simp only [np_argmax, List.length_cons]
    have h2 := argmax_go_lt xs 0 x 1 Nat.zero_lt_one
    omega

theorem trades_filter_sum (fee slippage funding : ℚ) (p : ℚ → Bool) :
    ∀ (l : List (Row × String)),
    (((l.map (fun rp =>
        { pnl := rowPnl rp.1 rp.2 fee slippage funding, direction := rp.2 : TradeResult })).filter
          (fun t => p t.pnl)).map TradeResult.pnl).sum =
      ((l.map (fun rp => rowPnl rp.1 rp.2 fee slippage funding)).filter p).sum := by
  intro l
  induction l with
  | nil => rfl
  | cons x xs ih =>
    simp only [List.map_cons, List.filter_cons]
    cases hp : p (rowPnl x.1 x.2 fee slippage funding) <;> simp [hp, ih]

theorem equityCurve_eq (rows : List Row) (predictions : List String)
    (fee slippage funding : ℚ) :
    (simulate_trades rows predictions fee slippage funding).equityCurve =
      List.scanl (· + ·) 0 (pnl_list rows predictions fee slippage funding) := by
  simp only [simulate_trades, pnl_list, List.map_map]
  rfl

theorem maxDrawdown_eq (rows : List Row) (predictions : List String)
    (fee slippage funding : ℚ) :
    (simulate_trades rows predictions fee slippage funding).maxDrawdown =
      ((List.zipWith (· - ·) (List.scanl (· + ·) 0 (pnl_list rows predictions fee slippage funding))
        (running_max (List.scanl (· + ·) 0 (pnl_list rows predictions fee slippage funding)))).min?).getD 0 := by
  simp only [simulate_trades, pnl_list, List.map_map]
  rfl

theorem min?_cons_foldl (x : ℚ) (xs : List ℚ) :
    (x :: xs).min? = some (xs.foldl min x) := rfl

theorem zip_sub_self (l : List ℚ) :
    List.zipWith (· - ·) l l = List.replicate l.length 0 := by
  induction l with
  | nil => rfl
  | cons x xs ih =>
    simp only [List.zipWith_cons_cons, sub_self, ih, List.length_cons]
    rfl

theorem drawdown_min_nonpos (pnls : List ℚ) :
    ((List.zipWith (· - ·) (List.scanl (· + ·) 0 pnls)
      (running_max (List.scanl (· + ·) 0 pnls))).min?).getD 0 ≤ 0 := by
  cases pnls with
  | nil => simp [running_max, min?_cons_foldl]
  | cons p ps =>
    rw [List.scanl_cons]
    simp only [List.singleton_append]
    rw [running_max, scanl_cons_tail max 0 (List.scanl (· + ·) (0 + p) ps)]
    simp only [List.zipWith_cons_cons, sub_self]
    rw [min?_cons_foldl]
    simpa using foldl_min_le_init _ 0

theorem drawdown_min_zero_of_chain (pnls : List ℚ)
    (h : List.Chain' (· ≤ ·) (List.scanl (· + ·) 0 pnls)) :
    ((List.zipWith (· - ·) (List.scanl (· + ·) 0 pnls)
      (running_max (List.scanl (· + ·) 0 pnls))).min?).getD 0 = 0 := by
  have hshape : List.scanl (· + ·) 0 pnls = 0 :: (List.scanl (· + ·) 0 pnls).tail :=
    scanl_cons_tail _ _ _
  rw [hshape] at h ⊢
  rw [running_max, scanl_max_of_chain _ 0 h, ← hshape, zip_sub_self]
  have hlen : (List.scanl (· + ·) 0 pnls).length = pnls.length + 1 := List.length_scanl 0 pnls
  rw [hlen]
  simp only [List.replicate, min?_cons_foldl]
  rw [foldl_min_of_le]
  · rfl
  · intro x hx
    simp [List.eq_of_mem_replicate hx]

/-- Claim C1: for every row `i`, the per-row realized PnL (the increment of
the equity curve across row `i`) is the row's `max_future_return` (0 if
absent) on a BUY prediction, the absolute value of `min_future_return`
(0 if absent) on SELL, and 0 otherwise, minus the flat cost
`(fee + slippage + funding) / 10000` applied uniformly to every row,
HOLD rows included. -/
theorem claim_C1 (rows : List Row) (predictions : List String)
    (fee slippage funding : ℚ) (h : rows.length = predictions.length)
    (i : Nat) (hi : i < rows.length) :
    (simulate_trades rows predictions fee slippage funding).equityCurve.getD (i + 1) 0 -
      (simulate_trades rows predictions fee slippage funding).equityCurve.getD i 0 =
      (if predictions.getD i "" = "BUY" then (rows.getD i ⟨none, none⟩).max_future_return.getD 0
       else if predictions.getD i "" = "SELL" then
         |(rows.getD i ⟨none, none⟩).min_future_return.getD 0|
       else 0) - (fee + slippage + funding) / 10000 := by
  have hzip : i < (rows.zip predictions).length := by
    rw [List.length_zip]
    omega
  have hlen : i < (pnl_list rows predictions fee slippage funding).length := by
    simpa [pnl_list] using hzip
  rw [equityCurve_eq, scanl_add_getD _ _ i hlen, add_sub_cancel_left]
  have hip : i < predictions.length := by omega
  rw [List.getD_eq_getElem _ _ hlen, List.getD_eq_getElem _ _ hi, List.getD_eq_getElem _ _ hip]
  simp only [pnl_list, List.getElem_map, List.getElem_zip]
  rfl

/-- Witness for C1 at a concrete one-row dataset. -/
theorem claim_C1_witness :
    ([⟨some (2/100), none⟩] : List Row).length = (["BUY"] : List String).length ∧
    (0 : Nat) < ([⟨some (2/100), none⟩] : List Row).length ∧
    (simulate_trades [⟨some (2/100), none⟩] ["BUY"] (15/2) 5 1).equityCurve.getD 1 0 -
      (simulate_trades [⟨some (2/100), none⟩] ["BUY"] (15/2) 5 1).equityCurve.getD 0 0 =
      (if (["BUY"] : List String).getD 0 "" = "BUY" then
        (([⟨some (2/100), none⟩] : List Row).getD 0 ⟨none, none⟩).max_future_return.getD 0
       else if (["BUY"] : List String).getD 0 "" = "SELL" then
         |(([⟨some (2/100), none⟩] : List Row).getD 0 ⟨none, none⟩).min_future_return.getD 0|
       else 0) - ((15/2) + 5 + 1) / 10000 :=
  ⟨rfl, Nat.zero_lt_one,
    claim_C1 [⟨some (2/100), none⟩] ["BUY"] (15/2) 5 1 rfl 0 Nat.zero_lt_one⟩

/-- Counterexample to C2 as stated: on the 3-row scenario the simulator's
maximum drawdown is -0.00135, not 0, and the difference exceeds 5-decimal
precision. -/
theorem claim_C2_counterexample :
    (simulate_trades [⟨some (2/100), none⟩, ⟨none, some (-(3/100))⟩, ⟨none, none⟩]
        ["BUY", "SELL", "HOLD"] (15/2) 5 1).maxDrawdown = -(27/20000) ∧
    (simulate_trades [⟨some (2/100), none⟩, ⟨none, some (-(3/100))⟩, ⟨none, none⟩]
        ["BUY", "SELL", "HOLD"] (15/2) 5 1).maxDrawdown ≠ 0 ∧
    |(simulate_trades [⟨some (2/100), none⟩, ⟨none, some (-(3/100))⟩, ⟨none, none⟩]
        ["BUY", "SELL", "HOLD"] (15/2) 5 1).maxDrawdown - 0| > 1/200000 := by
  refine ⟨?_, ?_, ?_⟩ <;>
    · simp [simulate_trades, rowPnl, running_max, List.min?]
      norm_num [abs_of_nonneg, abs_of_nonpos, max_def, min_def]

/-- Claim C2 (amended): on the 3-row scenario with predictions
[BUY, SELL, HOLD], max-future-return 0.02 on row 1, min-future-return
-0.03 on row 2 and costs 7.5 + 5 + 1 bps, the row PnLs are
[0.01865, 0.02865, -0.00135], the equity curve is
[0, 0.01865, 0.0473, 0.04595], and the maximum drawdown is -0.00135
(not 0: the final step is a decline of the cost term). -/
theorem claim_C2_amended :
    (List.zipWith (· - ·)
      (simulate_trades [⟨some (2/100), none⟩, ⟨none, some (-(3/100))⟩, ⟨none, none⟩]
          ["BUY", "SELL", "HOLD"] (15/2) 5 1).equityCurve.tail
      (simulate_trades [⟨some (2/100), none⟩, ⟨none, some (-(3/100))⟩, ⟨none, none⟩]
          ["BUY", "SELL", "HOLD"] (15/2) 5 1).equityCurve) =
        [1865/100000, 2865/100000, -(135/100000)] ∧
    (simulate_trades [⟨some (2/100), none⟩, ⟨none, some (-(3/100))⟩, ⟨none, none⟩]
        ["BUY", "SELL", "HOLD"] (15/2) 5 1).equityCurve =
      [0, 1865/100000, 4730/100000, 4595/100000] ∧
    (simulate_trades [⟨some (2/100), none⟩, ⟨none, some (-(3/100))⟩, ⟨none, none⟩]
        ["BUY", "SELL", "HOLD"] (15/2) 5 1).maxDrawdown = -(135/100000) := by
  refine ⟨?_, ?_, ?_⟩ <;>
    · simp [simulate_trades, rowPnl, running_max, List.min?]
      norm_num [abs_of_nonneg, abs_of_nonpos, max_def, min_def]

/-- Claim C6: the equity curve has length `rows + 1`, starts at 0, and each
subsequent element is the previous one plus that row's net PnL; the
reported maximum drawdown (minimum of equity minus running peak) is
always ≤ 0, and equals 0 when the equity curve is monotonically
non-decreasing. -/
theorem claim_C6 (rows : List Row) (predictions : List String)
    (fee slippage funding : ℚ) (h : rows.length = predictions.length) :
    (simulate_trades rows predictions fee slippage funding).equityCurve.length = rows.length + 1 ∧
    (simulate_trades rows predictions fee slippage funding).equityCurve.getD 0 0 = 0 ∧
    (∀ i, i < rows.length →
      (simulate_trades rows predictions fee slippage funding).equityCurve.getD (i + 1) 0 =
        (simulate_trades rows predictions fee slippage funding).equityCurve.getD i 0 +
          rowPnl (rows.getD i ⟨none, none⟩) (predictions.getD i "") fee slippage funding) ∧
    (simulate_trades rows predictions fee slippage funding).maxDrawdown ≤ 0 ∧
    (List.Chain' (· ≤ ·) (simulate_trades rows predictions fee slippage funding).equityCurve →
      (simulate_trades rows predictions fee slippage funding).maxDrawdown = 0) := by
  refine ⟨?_, ?_, ?_, ?_, ?_⟩
  · rw [equityCurve_eq, List.length_scanl]
    simp [pnl_list, List.length_zip]
    omega
  · rw [equityCurve_eq, scanl_cons_tail]
    simp
  · intro i hi
    have hzip : i < (rows.zip predictions).length := by
      rw [List.length_zip]
      omega
    have hlen : i < (pnl_list rows predictions fee slippage funding).length := by
      simpa [pnl_list] using hzip
    rw [equityCurve_eq, scanl_add_getD _ _ i hlen]
    have hip : i < predictions.length := by omega
    rw [List.getD_eq_getElem _ _ hlen, List.getD_eq_getElem _ _ hi, List.getD_eq_getElem _ _ hip]
    simp only [pnl_list, List.getElem_map, List.getElem_zip]
  · rw [maxDrawdown_eq]
    exact drawdown_min_nonpos _
  · intro hchain
    rw [equityCurve_eq] at hchain
    rw [maxDrawdown_eq]
    exact drawdown_min_zero_of_chain _ hchain

/-- Witness for C6 at a concrete one-row dataset. -/
theorem claim_C6_witness :
    ([⟨some (2/100), none⟩] : List Row).length = (["BUY"] : List String).length ∧
    ((simulate_trades [⟨some (2/100), none⟩] ["BUY"] (15/2) 5 1).equityCurve.length =
        ([⟨some (2/100), none⟩] : List Row).length + 1 ∧
      (simulate_trades [⟨some (2/100), none⟩] ["BUY"] (15/2) 5 1).equityCurve.getD 0 0 = 0 ∧
      (∀ i, i < ([⟨some (2/100), none⟩] : List Row).length →
        (simulate_trades [⟨some (2/100), none⟩] ["BUY"] (15/2) 5 1).equityCurve.getD (i + 1) 0 =
          (simulate_trades [⟨some (2/100), none⟩] ["BUY"] (15/2) 5 1).equityCurve.getD i 0 +
            rowPnl (([⟨some (2/100), none⟩] : List Row).getD i ⟨none, none⟩)
              ((["BUY"] : List String).getD i "") (15/2) 5 1) ∧
      (simulate_trades [⟨some (2/100), none⟩] ["BUY"] (15/2) 5 1).maxDrawdown ≤ 0 ∧
      (List.Chain' (· ≤ ·) (simulate_trades [⟨some (2/100), none⟩] ["BUY"] (15/2) 5 1).equityCurve →
        (simulate_trades [⟨some (2/100), none⟩] ["BUY"] (15/2) 5 1).maxDrawdown = 0)) :=
  ⟨rfl, claim_C6 [⟨some (2/100), none⟩] ["BUY"] (15/2) 5 1 rfl⟩

/-- Counterexample to C7 as stated: with a losing row whose absolute loss
sum (1e-12) is positive but smaller than the epsilon 1e-9, the code
divides by the exact loss sum, not by the epsilon-floored denominator the
claim describes, so the reported profit factor is 1e12 rather than 1e9. -/
theorem claim_C7_counterexample :
    (simulate_trades [⟨some 1, none⟩, ⟨some (-(1/1000000000000)), none⟩]
        ["BUY", "BUY"] 0 0 0).profitFactor = 1000000000000 ∧
    spec_profit_factor (pnl_list [⟨some 1, none⟩, ⟨some (-(1/1000000000000)), none⟩]
        ["BUY", "BUY"] 0 0 0) = 1000000000 ∧
    (simulate_trades [⟨some 1, none⟩, ⟨some (-(1/1000000000000)), none⟩]
        ["BUY", "BUY"] 0 0 0).profitFactor ≠
      spec_profit_factor (pnl_list [⟨some 1, none⟩, ⟨some (-(1/1000000000000)), none⟩]
        ["BUY", "BUY"] 0 0 0) := by
  refine ⟨?_, ?_, ?_⟩ <;>
    · simp [simulate_trades, spec_profit_factor, pnl_list, rowPnl]
      norm_num [abs_of_nonneg, abs_of_nonpos, max_def]

/-- Claim C7 (amended): the reported profit factor is the sum of the
strictly-positive per-row PnLs divided by the absolute value of the sum of
the strictly-negative per-row PnLs, where the denominator is replaced by
the epsilon 1e-9 exactly when it is zero (no losing rows); a nonzero
denominator smaller than the epsilon is used as-is. -/
theorem claim_C7_amended (rows : List Row) (predictions : List String)
    (fee slippage funding : ℚ) :
    (simulate_trades rows predictions fee slippage funding).profitFactor =
      ((List.zipWith (· - ·)
          (simulate_trades rows predictions fee slippage funding).equityCurve.tail
          (simulate_trades rows predictions fee slippage funding).equityCurve).filter
            (fun p => decide (0 < p))).sum /
        (if |((List.zipWith (· - ·)
              (simulate_trades rows predictions fee slippage funding).equityCurve.tail
              (simulate_trades rows predictions fee slippage funding).equityCurve).filter
                (fun p => decide (p < 0))).sum| = 0 then 1 / 1000000000
         else |((List.zipWith (· - ·)
              (simulate_trades rows predictions fee slippage funding).equityCurve.tail
              (simulate_trades rows predictions fee slippage funding).equityCurve).filter
                (fun p => decide (p < 0))).sum|) := by
  rw [equityCurve_eq, zip_sub_tail_scanl]
  show (simulate_trades rows predictions fee slippage funding).profitFactor = _
  simp only [simulate_trades, pnl_list]
  rw [← trades_filter_sum fee slippage funding (fun p => decide (0 < p)) (rows.zip predictions),
    ← trades_filter_sum fee slippage funding (fun p => decide (p < 0)) (rows.zip predictions)]

/-- Claim C3: alignment outputs a vector in trained-name order — length
equals the trained list's, each trained name present among the caller's
names receives the caller's value for that name, each absent trained name
receives 0 — and with no caller-supplied names the raw vector passes
through unchanged. -/
theorem claim_C3 (values : List ℚ) (names feature_names : List String)
    (h : names.length = values.length) :
    (align feature_names values names).length = feature_names.length ∧
    (∀ j, j < feature_names.length →
      (feature_names.getD j "" ∈ names →
        ∃ i, i < names.length ∧ names.getD i "" = feature_names.getD j "" ∧
          (align feature_names values names).getD j 0 = values.getD i 0) ∧
      (feature_names.getD j "" ∉ names →
        (align feature_names values names).getD j 0 = 0)) ∧
    (∀ trained : List String, aligned_vector values none trained = values) := by
  refine ⟨align_length _ _ _, ?_, ?_⟩
  · intro j hj
    constructor
    · intro hmem
      have hne : index_map_rec names (feature_names.getD j "") ≠ none := by
        rw [Ne, index_map_rec_none_iff]
        simpa using hmem
      obtain ⟨i, hieq⟩ := Option.ne_none_iff_exists.mp hne
      obtain ⟨hi, hig⟩ := index_map_rec_some names _ i hieq.symm
      refine ⟨i, hi, hig, ?_⟩
      rw [align_getD _ _ _ j hj, index_map_eq_rec, ← hieq]
    · intro hmem
      have hnone : index_map_rec names (feature_names.getD j "") = none :=
        (index_map_rec_none_iff names _).mpr hmem
      rw [align_getD _ _ _ j hj, index_map_eq_rec, hnone]
  · intro trained
    rfl

/-- Witness for C3: a trained name shared with the caller copies the
caller's value, an unshared trained name is zero-filled. -/
theorem claim_C3_witness :
    (["x", "y"] : List String).length = ([5, 7] : List ℚ).length ∧
    ((align ["y", "z"] [5, 7] ["x", "y"]).length = (["y", "z"] : List String).length ∧
      (∀ j, j < (["y", "z"] : List String).length →
        ((["y", "z"] : List String).getD j "" ∈ (["x", "y"] : List String) →
          ∃ i, i < (["x", "y"] : List String).length ∧
            (["x", "y"] : List String).getD i "" = (["y", "z"] : List String).getD j "" ∧
            (align ["y", "z"] [5, 7] ["x", "y"]).getD j 0 = ([5, 7] : List ℚ).getD i 0) ∧
        ((["y", "z"] : List String).getD j "" ∉ (["x", "y"] : List String) →
          (align ["y", "z"] [5, 7] ["x", "y"]).getD j 0 = 0)) ∧
      (∀ trained : List String, aligned_vector [5, 7] none trained = [5, 7])) ∧
    align ["y", "z"] [5, 7] ["x", "y"] = [7, 0] :=
  ⟨rfl, claim_C3 [5, 7] ["x", "y"] ["y", "z"] rfl, rfl⟩

/-- Claim C10: when the caller-supplied name list repeats a name, alignment
resolves that name to the value at its last occurrence (the name→index
dict is built with later entries overwriting earlier ones). -/
theorem claim_C10 (values : List ℚ) (names feature_names : List String)
    (h : names.length = values.length) (j i : Nat)
    (hj : j < feature_names.length) (hi : i < names.length)
    (he : names.getD i "" = feature_names.getD j "")
    (hlast : ∀ k, k < names.length → i < k →
      names.getD k "" ≠ feature_names.getD j "") :
    (align feature_names values names).getD j 0 = values.getD i 0 := by
  rw [align_getD _ _ _ j hj, index_map_eq_rec,
    index_map_rec_last names _ i hi he hlast]

/-- Witness for C10: with caller names ["a", "b", "a"], the trained name
"a" takes the value at the last occurrence (index 2), ignoring index 0. -/
theorem claim_C10_witness :
    (["a", "b", "a"] : List String).getD 2 "" = (["a"] : List String).getD 0 "" ∧
    (align ["a"] [10, 20, 30] ["a", "b", "a"]).getD 0 0 = ([10, 20, 30] : List ℚ).getD 2 0 ∧
    (align ["a"] [10, 20, 30] ["a", "b", "a"]).getD 0 0 = 30 :=
  ⟨rfl,
    claim_C10 [10, 20, 30] ["a", "b", "a"] ["a"] rfl 0 2
      Nat.zero_lt_one (by decide) rfl
      (by
        intro k hk hik
        simp only [List.length_cons, List.length_nil] at hk
        omega),
    rfl⟩

/-- Claim C5: the explanation ranker returns at most 6 entries, every
"supports" entry has strictly positive contribution, every "reduces
confidence" entry has strictly negative contribution, and the output is a
supports-block followed by a reduces-block (supports concatenated first,
the whole list truncated to 6). -/
theorem claim_C5 (feature_names : List String) (contributions : List ℚ) :
    (format_explanations feature_names contributions).length ≤ 6 ∧
    (∀ e ∈ format_explanations feature_names contributions,
      (∀ d, e.kind = ExplanationKind.supports d → 0 < e.value) ∧
      (e.kind = ExplanationKind.reduces → e.value < 0)) ∧
    (∃ s t, format_explanations feature_names contributions = s ++ t ∧
      (∀ e ∈ s, ∃ d, e.kind = ExplanationKind.supports d) ∧
      (∀ e ∈ t, e.kind = ExplanationKind.reduces)) := by
  simp only [format_explanations]
  refine ⟨?_, ?_, ?_⟩
  · rw [List.length_take]
    exact min_le_left _ _
  · intro e he
    have he2 := List.take_subset _ _ he
    rcases List.mem_append.mp he2 with hp | hn
    · obtain ⟨fc, hfc, rfl⟩ := List.mem_map.mp hp
      have hmem2 := List.take_subset _ _ hfc
      have hpos := List.of_mem_filter hmem2
      constructor
      · intro d _
        simpa using hpos
      · intro hk
        simp at hk
    · obtain ⟨fc, hfc, rfl⟩ := List.mem_map.mp hn
      have hmem2 := List.drop_subset _ _ hfc
      have hneg := List.of_mem_filter hmem2
      constructor
      · intro d hd
        simp at hd
      · intro _
        simpa using hneg
  · refine ⟨_, _, List.take_append_eq_append_take, ?_, ?_⟩
    · intro e he
      obtain ⟨fc, hfc, rfl⟩ := List.mem_map.mp (List.take_subset _ _ he)
      exact ⟨_, rfl⟩
    · intro e he
      obtain ⟨fc, hfc, rfl⟩ := List.mem_map.mp (List.take_subset _ _ he)
      rfl

theorem lookup_bundle_append (st : RegistryState) (path : String) (bundle : Bundle)
    (h : lookup_bundle st path = none) :
    lookup_bundle ⟨st.bundles ++ [(path, bundle)]⟩ path = some bundle := by
  have hfind : st.bundles.find? (fun p => p.1 == path) = none := by
    unfold lookup_bundle at h
    cases hf : st.bundles.find? (fun p => p.1 == path) with
    | none => rfl
    | some p =>
      rw [hf] at h
      simp at h
  unfold lookup_bundle
  rw [List.find?_append, hfind]
  simp

/-- Claim C8: when the file for a path does not exist the loader returns
`None` (no exception) and `predict` then surfaces the "Model not ready"
NotReady error; once a path is loaded, a repeated call returns the cached
bundle with the registry unchanged and zero file reads. -/
theorem claim_C8 (fs : String → Option Bundle) (st : RegistryState) (path : String)
    (explainer : Option (List ℚ → Nat → List ℚ)) (features : List ℚ)
    (requested : Option (List String)) :
    (lookup_bundle st path = none → fs path = none →
      load_model fs st path = (none, st, 0) ∧
      (features ≠ [] →
        predict fs st path explainer features requested = (.error "Model not ready" 503, st))) ∧
    (∀ b st2 k, load_model fs st path = (some b, st2, k) →
      load_model fs st2 path = (some b, st2, 0)) := by
  constructor
  · intro h1 h2
    have hload : load_model fs st path = (none, st, 0) := by
      unfold load_model
      rw [h1, h2]
    refine ⟨hload, ?_⟩
    intro hf
    have hlen : ¬features.length = 0 := by simpa [List.length_eq_zero] using hf
    unfold predict
    rw [if_neg hlen, hload]
  · intro b st2 k hload
    unfold load_model at hload
    cases hl : lookup_bundle st path with
    | some b0 =>
      rw [hl] at hload
      have hb : b0 = b := Option.some.inj (congrArg Prod.fst hload)
      have hst : st = st2 := congrArg (fun p => p.2.1) hload
      subst hb
      subst hst
      unfold load_model
      rw [hl]
    | none =>
      rw [hl] at hload
      cases hfs : fs path with
      | none =>
        rw [hfs] at hload
        exact absurd (congrArg Prod.fst hload) (by simp)
      | some bundle =>
        rw [hfs] at hload
        have hb : bundle = b := Option.some.inj (congrArg Prod.fst hload)
        have hst : (⟨st.bundles ++ [(path, bundle)]⟩ : RegistryState) = st2 :=
          congrArg (fun p => p.2.1) hload
        subst hb
        subst hst
        unfold load_model
        rw [lookup_bundle_append st path bundle hl]

/-- Witness for C8: a missing file yields `None` and a NotReady error
from `predict`; a cached path is returned with zero reads. -/
theorem claim_C8_witness :
    load_model (fun _ => none) ⟨[]⟩ "p" = (none, ⟨[]⟩, 0) ∧
    predict (fun _ => none) ⟨[]⟩ "p" none [1] none = (.error "Model not ready" 503, ⟨[]⟩) ∧
    load_model (fun _ => some wBundle) ⟨[("p", wBundle)]⟩ "p" =
      (some wBundle, ⟨[("p", wBundle)]⟩, 0) := by
  refine ⟨?_, ?_, ?_⟩
  · exact ((claim_C8 (fun _ => none) ⟨[]⟩ "p" none [1] none).1 rfl rfl).1
  · exact ((claim_C8 (fun _ => none) ⟨[]⟩ "p" none [1] none).1 rfl rfl).2 (by simp)
  · exact (claim_C8 (fun _ => some wBundle) ⟨[("p", wBundle)]⟩ "p" none [1] none).2
      wBundle ⟨[("p", wBundle)]⟩ 0 rfl

/-- Counterexample to C9 as stated: the code's error strings are
"No features provided" and "Feature count mismatch" (leading capital),
not the lowercase strings the claim quotes. -/
theorem claim_C9_counterexample :
    predict (fun _ => none) ⟨[]⟩ "p" none [] none = (.error "No features provided" 400, ⟨[]⟩) ∧
    "No features provided" ≠ "no features provided" ∧
    predict (fun _ => some wBundle) ⟨[]⟩ "p" none [1, 2, 3] (some ["a", "b"]) =
      (.error "Feature count mismatch" 400, ⟨[("p", wBundle)]⟩) ∧
    "Feature count mismatch" ≠ "feature count mismatch" := by
  exact ⟨rfl, by decide, rfl, by decide⟩

/-- Claim C9 (amended): `predict` rejects with a descriptive validation
error rather than crashing — an empty feature list yields the error
"No features provided", and a caller-supplied name list (e.g. 2 names for
3 values) whose length differs from the value list yields
"Feature count mismatch"; the quoted messages carry a leading capital
letter. -/
theorem claim_C9_amended (fs : String → Option Bundle) (st : RegistryState) (path : String)
    (explainer : Option (List ℚ → Nat → List ℚ)) (features : List ℚ)
    (requested : Option (List String)) :
    (features = [] →
      predict fs st path explainer features requested = (.error "No features provided" 400, st)) ∧
    (∀ names bundle st2 k, features ≠ [] →
      load_model fs st path = (some bundle, st2, k) →
      requested = some names → names ≠ [] → names.length ≠ features.length →
      predict fs st path explainer features requested =
        (.error "Feature count mismatch" 400, st2)) := by
  constructor
  · intro h
    subst h
    rfl
  · intro names bundle st2 k hf hload hreq hne hmis
    subst hreq
    have hlen : ¬features.length = 0 := by simpa [List.length_eq_zero] using hf
    unfold predict
    rw [if_neg hlen, hload]
    have hcond : truthy_names (some names) = true ∧
        ((some names : Option (List String)).getD []).length ≠ features.length := by
      constructor
      · simp [truthy_names, hne]
      · simpa using hmis
    dsimp only
    rw [if_pos hcond]

/-- Witness for C9 (amended) at concrete inputs. -/
theorem claim_C9_amended_witness :
    predict (fun _ => none) ⟨[]⟩ "p" none [] none = (.error "No features provided" 400, ⟨[]⟩) ∧
    predict (fun _ => some wBundle) ⟨[]⟩ "p" none [1, 2, 3] (some ["a", "b"]) =
      (.error "Feature count mismatch" 400, ⟨[("p", wBundle)]⟩) := by
  refine ⟨?_, ?_⟩
  · exact (claim_C9_amended (fun _ => none) ⟨[]⟩ "p" none [] none).1 rfl
  · exact (claim_C9_amended (fun _ => some wBundle) ⟨[]⟩ "p" none [1, 2, 3]
      (some ["a", "b"])).2 ["a", "b"] wBundle ⟨[("p", wBundle)]⟩ 1
      (by simp) rfl rfl (by simp) (by simp)

theorem class_probability_spec (classes : List String) (probs : List ℚ)
    (hlen : probs.length = classes.length)
    (hrange : ∀ q ∈ probs, 0 ≤ q ∧ q ≤ 1) (lab : String) :
    (lab ∈ classes →
      class_probability classes probs lab = some (probs.getD (classes.indexOf lab) 0) ∧
      ∃ q, class_probability classes probs lab = some q ∧ 0 ≤ q ∧ q ≤ 1) ∧
    (lab ∉ classes → class_probability classes probs lab = none) := by
  constructor
  · intro hmem
    have hidx : classes.indexOf lab < probs.length := by
      rw [hlen]
      exact List.indexOf_lt_length.mpr hmem
    have hq : probs.getD (classes.indexOf lab) 0 ∈ probs := by
      rw [List.getD_eq_getElem _ _ hidx]
      exact List.getElem_mem hidx
    refine ⟨by simp [class_probability, hmem], probs.getD (classes.indexOf lab) 0,
      by simp [class_probability, hmem], (hrange _ hq).1, (hrange _ hq).2⟩
  · intro hmem
    simp [class_probability, hmem]

/-- Claim C4: every successful prediction response reports
`confidence = floor(probability * 100)`, a selected probability within
[0,1], and a probability map with exactly the keys BUY/SELL/HOLD, where a
trained label maps to its class probability (in [0,1]) and an untrained
label maps to `none`, without erroring. -/
theorem claim_C4 (fs : String → Option Bundle) (st : RegistryState) (path : String)
    (explainer : Option (List ℚ → Nat → List ℚ)) (bundle : Bundle)
    (st2 : RegistryState) (k : Nat) (features : List ℚ)
    (requested : Option (List String)) (probs : List ℚ)
    (hload : load_model fs st path = (some bundle, st2, k))
    (hf : features ≠ [])
    (hnames : ¬(truthy_names requested = true ∧
      (requested.getD []).length ≠ features.length))
    (hprobs : probs = bundle.predict_proba (bundle.scaler
      (aligned_vector features requested (resolved_feature_names bundle features))))
    (hne : probs ≠ [])
    (hlen : probs.length = bundle.classes.length)
    (hrange : ∀ q ∈ probs, 0 ≤ q ∧ q ≤ 1) :
    ∃ resp : Response,
      predict fs st path explainer features requested = (.ok resp, st2) ∧
      resp.confidence = ⌊resp.probability * 100⌋ ∧
      0 ≤ resp.probability ∧ resp.probability ≤ 1 ∧
      resp.probabilities.map Prod.fst = ["BUY", "SELL", "HOLD"] ∧
      (∀ lab v, (lab, v) ∈ resp.probabilities →
        (lab ∈ bundle.classes →
          v = some (probs.getD (bundle.classes.indexOf lab) 0) ∧
          ∃ q, v = some q ∧ 0 ≤ q ∧ q ≤ 1) ∧
        (lab ∉ bundle.classes → v = none)) := by
  have hlen0 : ¬features.length = 0 := by simpa [List.length_eq_zero] using hf
  have hmemp : probs.getD (np_argmax probs) 0 ∈ probs := by
    have hidx := np_argmax_lt probs hne
    rw [List.getD_eq_getElem _ _ hidx]
    exact List.getElem_mem hidx
  have hp0 : 0 ≤ probs.getD (np_argmax probs) 0 := (hrange _ hmemp).1
  have hp1 : probs.getD (np_argmax probs) 0 ≤ 1 := (hrange _ hmemp).2
  have hempty : ¬(bundle.predict_proba (bundle.scaler
      (aligned_vector features requested (resolved_feature_names bundle features)))).isEmpty = true := by
    rw [← hprobs]
    simpa [List.isEmpty_iff] using hne
  refine ⟨{ signal := bundle.classes.getD (np_argmax probs) ""
            probability := probs.getD (np_argmax probs) 0
            confidence := pyInt (probs.getD (np_argmax probs) 0 * 100)
            explanations :=
              match explainer with
              | some f => format_explanations (resolved_feature_names bundle features)
                  (f (bundle.scaler
                    (aligned_vector features requested (resolved_feature_names bundle features)))
                    (np_argmax probs))
              | none => []
            probabilities :=
              [("BUY", class_probability bundle.classes probs "BUY"),
               ("SELL", class_probability bundle.classes probs "SELL"),
               ("HOLD", class_probability bundle.classes probs "HOLD")] },
    ?_, ?_, hp0, hp1, ?_, ?_⟩
  · unfold predict
    rw [if_neg hlen0, hload]
    dsimp only
    rw [if_neg hnames]
    rw [if_neg hempty]
    rw [← hprobs]
  · show pyInt (probs.getD (np_argmax probs) 0 * 100) = ⌊probs.getD (np_argmax probs) 0 * 100⌋
    unfold pyInt
    rw [if_pos (by positivity)]
  · rfl
  · intro lab v hmemv
    have hspec := class_probability_spec bundle.classes probs hlen hrange
    simp only [List.mem_cons, List.not_mem_nil, or_false] at hmemv
    rcases hmemv with h | h | h <;>
      · rw [Prod.mk.injEq] at h
        obtain ⟨rfl, rfl⟩ := h
        exact hspec _

/-- Witness for C4 with a bundle whose trained classes lack SELL: the map
keeps all three keys, SELL is `null`, and no error is raised. -/
theorem claim_C4_witness :
    load_model (fun _ => some wBundle) ⟨[]⟩ "p" = (some wBundle, ⟨[("p", wBundle)]⟩, 1) ∧
    ([3/10, 7/10] : List ℚ) = wBundle.predict_proba (wBundle.scaler
      (aligned_vector [1, 2] none (resolved_feature_names wBundle [1, 2]))) ∧
    (∀ q ∈ ([3/10, 7/10] : List ℚ), 0 ≤ q ∧ q ≤ 1) ∧
    (∃ resp : Response,
      predict (fun _ => some wBundle) ⟨[]⟩ "p" none [1, 2] none =
        (.ok resp, ⟨[("p", wBundle)]⟩) ∧
      resp.confidence = ⌊resp.probability * 100⌋ ∧
      0 ≤ resp.probability ∧ resp.probability ≤ 1 ∧
      resp.probabilities.map Prod.fst = ["BUY", "SELL", "HOLD"] ∧
      (∀ lab v, (lab, v) ∈ resp.probabilities →
        (lab ∈ wBundle.classes →
          v = some (([3/10, 7/10] : List ℚ).getD (wBundle.classes.indexOf lab) 0) ∧
          ∃ q, v = some q ∧ 0 ≤ q ∧ q ≤ 1) ∧
        (lab ∉ wBundle.classes → v = none))) := by
  refine ⟨rfl, rfl, ?_, ?_⟩
  · intro q hq
    simp only [List.mem_cons, List.not_mem_nil, or_false] at hq
    rcases hq with rfl | rfl <;> norm_num
  · exact claim_C4 (fun _ => some wBundle) ⟨[]⟩ "p" none wBundle ⟨[("p", wBundle)]⟩ 1 [1, 2] none
      [3/10, 7/10] rfl (by simp) (by simp [truthy_names]) rfl (by simp) rfl
      (by
        intro q hq
        simp only [List.mem_cons, List.not_mem_nil, or_false] at hq
        rcases hq with rfl | rfl <;> norm_num)

/-- Witness for C5 at a concrete contribution vector: one positive
("rsi", tagged LONG) and two negative features. -/
theorem claim_C5_witness :
    ((format_explanations ["rsi", "depth", "spread"] [5, -1, -2]).length ≤ 6 ∧
      (∀ e ∈ format_explanations ["rsi", "depth", "spread"] [5, -1, -2],
        (∀ d, e.kind = ExplanationKind.supports d → 0 < e.value) ∧
        (e.kind = ExplanationKind.reduces → e.value < 0)) ∧
      (∃ s t, format_explanations ["rsi", "depth", "spread"] [5, -1, -2] = s ++ t ∧
        (∀ e ∈ s, ∃ d, e.kind = ExplanationKind.supports d) ∧
        (∀ e ∈ t, e.kind = ExplanationKind.reduces))) ∧
    format_explanations ["rsi", "depth", "spread"] [5, -1, -2] =
      [{ name := "rsi", value := 5, kind := .supports "LONG" },
       { name := "depth", value := -1, kind := .reduces },
       { name := "spread", value := -2, kind := .reduces }] := by
  refine ⟨claim_C5 ["rsi", "depth", "spread"] [5, -1, -2], ?_⟩
  have hsig : get_signal_from_feature "rsi" = "LONG" := by decide
  have hsorted : ([("rsi", (5 : ℚ)), ("depth", -1), ("spread", -2)]).mergeSort
      (fun a b => decide (b.2 ≤ a.2)) = [("rsi", 5), ("depth", -1), ("spread", -2)] := by
    apply List.mergeSort_of_sorted
    norm_num [List.pairwise_cons]
  simp only [format_explanations]
  rw [show (["rsi", "depth", "spread"].zip ([5, -1, -2] : List ℚ)) =
    [("rsi", (5 : ℚ)), ("depth", -1), ("spread", -2)] from rfl, hsorted]
  norm_num [List.filter, hsig]

end MLService
